import Mathlib

/-!
Shallow embedding of the keyboard-event core of RawInputViewer
(src/RawInputViewer.hpp, src/RawInputViewer.cpp): the scan-code
normalization state machine (`MainWindow::adjustKeyboardInput`), the
compact event codec (`PackedRawKeyboard`), the key-table loaders
(the two mapping loops of `MainWindow::MainWindow`) and the lookup
functions (`MainWindow::lookupVirtualKey` / `lookupKeyCode`).

Machine integers are modelled as `Nat` with explicit `% 2^w` wherever
the C++ code truncates (bitfields, `static_cast<USHORT>`, `LOWORD`).
`std::map<USHORT, V>` is modelled as an association list whose
observable operations are `find` (first entry with the key) and
`emplace` (insert only when the key is absent), matching the standard
container semantics the source relies on.
-/

namespace RawInputViewer

/-! ### Windows SDK constants used by the source -/

def RI_KEY_BREAK : Nat := 1
def RI_KEY_E0 : Nat := 2
def RI_KEY_E1 : Nat := 4

def KEYBOARD_OVERRUN_MAKE_CODE : Nat := 0xFF

def VK_PAUSE : Nat := 0x13
def VK_SHIFT : Nat := 0x10
def VK_CONTROL : Nat := 0x11
def VK_MENU : Nat := 0x12
def VK_LSHIFT : Nat := 0xA0
def VK_RSHIFT : Nat := 0xA1
def VK_RCONTROL : Nat := 0xA3
def VK_RMENU : Nat := 0xA5

/-! ### AdjustmentFlags (RawInputViewer.hpp, `enum class AdjustmentFlags`) -/

def MakeCodeMapped : Nat := 0x01
def VirtualKeyAdjusted : Nat := 0x02
def ExtendedLookup : Nat := 0x80

/-! ### RAWKEYBOARD / RawKeyboard (RawInputViewer.hpp lines 841-864)

Only the three fields the core reads (`MakeCode`, `Flags`, `VKey`) are
modelled; all are `USHORT` in the Windows structure. -/

structure RAWKEYBOARD where
  MakeCode : Nat
  Flags : Nat
  VKey : Nat
deriving DecidableEq

structure RawKeyboard where
  MakeCode : Nat
  Flags : Nat
  VKey : Nat
  /-- Field `AdjustmentFlags adjustments` (underlying `uint32_t`). -/
  adjustments : Nat
  isKeyDown : Bool
deriving DecidableEq

/-- Constructor `explicit RawKeyboard(const RAWKEYBOARD&)`: adjustments start as
`ExtendedLookup` iff the E0 flag is set; `isKeyDown` iff the break flag
is clear. -/
def RawKeyboard.fromRaw (r : RAWKEYBOARD) : RawKeyboard :=
  { MakeCode := r.MakeCode
    Flags := r.Flags
    VKey := r.VKey
    adjustments := if r.Flags &&& RI_KEY_E0 ≠ 0 then ExtendedLookup else 0
    isKeyDown := r.Flags &&& RI_KEY_BREAK == 0 }

/-- Constructor `RawKeyboard(const RAWKEYBOARD&, AdjustmentFlags)`: delegates to the
first constructor, then overwrites `adjustments`. -/
def RawKeyboard.fromRawWithAdjustments (r : RAWKEYBOARD) (adj : Nat) : RawKeyboard :=
  { RawKeyboard.fromRaw r with adjustments := adj }

/-- Method `RawKeyboard::getLookupCode`:
`static_cast<USHORT>(MakeCode | (adjustments & ExtendedLookup ? 0x100 : 0))`. -/
def RawKeyboard.getLookupCode (k : RawKeyboard) : Nat :=
  (k.MakeCode ||| (if k.adjustments &&& ExtendedLookup ≠ 0 then 0x100 else 0)) % 65536

/-! ### PackedRawKeyboard (RawInputViewer.hpp lines 866-899)

The MSVC `uint32_t` bitfields allocate the first declared field in the
least significant bits, so the packed word is
`makeCode | flags << 8 | vKey << 16 | adjustments << 24`, each field
truncated to its 8-bit width. -/

/-- Constructor `PackedRawKeyboard(const RawKeyboard&)` viewed through the union as
the 32-bit `lParam` word. -/
def pack (k : RawKeyboard) : Nat :=
  k.MakeCode % 256 + k.Flags % 256 * 256 + k.VKey % 256 * 65536 +
    k.adjustments % 256 * 16777216

/-- Constructor `PackedRawKeyboard(LPARAM)` followed by `getRawKeyboard()`: extract
the four bytes and rebuild through the two-argument `RawKeyboard`
constructor (which recomputes `isKeyDown` from the unpacked flags byte
and overwrites `adjustments` with the unpacked byte). -/
def getRawKeyboard (w : Nat) : RawKeyboard :=
  RawKeyboard.fromRawWithAdjustments
    { MakeCode := w % 256, Flags := w / 256 % 256, VKey := w / 65536 % 256 }
    (w / 16777216 % 256)

/-! ### Scan-code normalization (RawInputViewer.cpp lines 22-112) -/

inductive ScanCodeSequence
  | None
  | E0
  | E1
deriving DecidableEq

/-- The `switch (isE0; rawKbd.VKey)` block of `adjustKeyboardInput`
(RawInputViewer.cpp lines 74-109): disambiguate overloaded virtual keys
using the E0 flag and the make code. -/
def adjustVirtualKey (k : RawKeyboard) : RawKeyboard :=
  let isE0 := k.Flags &&& RI_KEY_E0 ≠ 0
  if k.VKey = VK_SHIFT then
    if k.MakeCode = 0x2A then
      { k with VKey := VK_LSHIFT, adjustments := k.adjustments ||| VirtualKeyAdjusted }
    else if k.MakeCode = 0x36 then
      { k with VKey := VK_RSHIFT, adjustments := k.adjustments ||| VirtualKeyAdjusted }
    else k
  else if k.VKey = VK_CONTROL then
    if isE0 then
      { k with VKey := VK_RCONTROL, adjustments := k.adjustments ||| VirtualKeyAdjusted }
    else k
  else if k.VKey = VK_MENU then
    if isE0 then
      { k with VKey := VK_RMENU, adjustments := k.adjustments ||| VirtualKeyAdjusted }
    else k
  else k

/-- Method `MainWindow::adjustKeyboardInput`, made explicit in the state it
mutates: `mapVirtualKey` is the platform `MapVirtualKey(_, MAPVK_VK_TO_VSC_EX)`
oracle (an arbitrary `UINT` result; the code keeps only `LOWORD` of it,
and a failing call is the result `0`), `pending` is `pendingSequence_`
before the call.  Returns the state after the call, together with
`some` adjusted event when the function returns `true` and `none` when
it returns `false` (event filtered out). -/
def adjustKeyboardInput (mapVirtualKey : Nat → Nat) (pending : ScanCodeSequence)
    (rawKbd : RawKeyboard) : ScanCodeSequence × Option RawKeyboard :=
  -- Filter out overruns
  if rawKbd.MakeCode = KEYBOARD_OVERRUN_MAKE_CODE then
    (pending, none)
  -- Handle Ctrl+{key} sequence
  else if rawKbd.Flags &&& RI_KEY_E1 ≠ 0 then
    (ScanCodeSequence.E1, none)
  -- 0xE02A (fake L-shift) indicates the start of an E0 key sequence
  else if rawKbd.Flags &&& RI_KEY_E0 ≠ 0 ∧ rawKbd.MakeCode = 0x2A then
    (ScanCodeSequence.E0, none)
  else
    -- std::exchange(pendingSequence_, ScanCodeSequence::None)
    let consumed := pending
    let rawKbd :=
      if rawKbd.MakeCode = 0 then
        -- rawKbd.MakeCode = LOWORD(MapVirtualKey(rawKbd.VKey, MAPVK_VK_TO_VSC_EX))
        { rawKbd with
          MakeCode := mapVirtualKey rawKbd.VKey % 65536
          adjustments := rawKbd.adjustments ||| MakeCodeMapped }
      else rawKbd
    if rawKbd.MakeCode = 0 then
      (ScanCodeSequence.None, none)
    else
      let rawKbd :=
        if rawKbd.MakeCode = 0x45 then
          if consumed = ScanCodeSequence.E1 then
            -- Must be Pause/Break
            { rawKbd with VKey := VK_PAUSE,
                          adjustments := rawKbd.adjustments ||| VirtualKeyAdjusted }
          else
            -- Must be Num Lock
            { rawKbd with adjustments := rawKbd.adjustments ||| ExtendedLookup }
        else rawKbd
      (ScanCodeSequence.None, some (adjustVirtualKey rawKbd))

/-! ### Text helpers (RawInputViewer.hpp lines 127-138, 364-441)

Strings are modelled as `List Char`.  `toWString` (UTF-8 widening) is
the identity on the modelled character data. -/

/-- Predicate `isWhitespace<char>` = C `isspace` in the default locale. -/
def isWhitespaceChar (c : Char) : Bool :=
  c == ' ' || c == '\t' || c == '\n' || c == '\x0b' || c == '\x0c' || c == '\r'

/-- Split `std::views::split(separator)`: all segments, empty ones included
(the empty text yields one empty segment). -/
def splitOnSep (sep : Char) : List Char → List (List Char)
  | [] => [[]]
  | c :: rest =>
    match splitOnSep sep rest with
    | [] => [[]]
    | seg :: segs => if c == sep then [] :: seg :: segs else (c :: seg) :: segs

/-- The trimming lambda of `splitAndTrimTrailing`: move `end` back over
trailing whitespace. -/
def trimTrailing (l : List Char) : List Char :=
  (l.reverse.dropWhile isWhitespaceChar).reverse

/-- Pipeline `splitAndTrimTrailing(text, separator)`: split, trim each segment's
trailing whitespace, drop empty segments. -/
def splitAndTrimTrailing (sep : Char) (text : List Char) : List (List Char) :=
  ((splitOnSep sep text).map trimTrailing).filter (fun sv => ¬sv.isEmpty)

/-- Helper for `splitOnce`: `some (before, after)` when the separator
occurs, splitting at its first occurrence. -/
def splitOnceAux (sep : Char) : List Char → Option (List Char × List Char)
  | [] => none
  | c :: rest =>
    if c == sep then some ([], rest)
    else
      match splitOnceAux sep rest with
      | none => none
      | some (a, b) => some (c :: a, b)

/-- Function `splitOnce(text, separator)`: `(text, "")` when the separator is
absent (and `("", "")` on empty text, which coincides). -/
def splitOnce (sep : Char) (text : List Char) : List Char × List Char :=
  match splitOnceAux sep text with
  | none => (text, [])
  | some p => p

/-! ### `toIntegralNumber` = `strtoll` on a zero-terminated copy
(RawInputViewer.hpp lines 364-405) -/

/-- Value of one digit character in the given base (10 or 16), `none`
when the character stops the scan. -/
def digitVal (base : Nat) (c : Char) : Option Nat :=
  if '0' ≤ c ∧ c ≤ '9' then
    if c.toNat - '0'.toNat < base then some (c.toNat - '0'.toNat) else none
  else if base = 16 ∧ 'a' ≤ c ∧ c ≤ 'f' then some (c.toNat - 'a'.toNat + 10)
  else if base = 16 ∧ 'A' ≤ c ∧ c ≤ 'F' then some (c.toNat - 'A'.toNat + 10)
  else none

/-- Accumulate digits until the first non-digit character. -/
def parseDigits (base : Nat) (acc : Nat) : List Char → Nat
  | [] => acc
  | c :: rest =>
    match digitVal base c with
    | some d => parseDigits base (acc * base + d) rest
    | none => acc

/-- A `strtoll` base-16 scan accepts an optional `0x` / `0X` marker. -/
def dropHexMarker : List Char → List Char
  | '0' :: c :: rest => if c == 'x' || c == 'X' then rest else '0' :: c :: rest
  | l => l

/-- The `long long` value produced by `strtoll(text, nullptr, base)`:
skip leading whitespace, one optional sign, the hex marker in base 16,
then digits until the first invalid character (no digits gives `0`);
out-of-range magnitudes clamp to `LLONG_MAX` / `LLONG_MIN`. -/
def strtollVal (base : Nat) (text : List Char) : Int :=
  let t := text.dropWhile isWhitespaceChar
  let signAndRest : Bool × List Char :=
    match t with
    | '-' :: rest => (true, rest)
    | '+' :: rest => (false, rest)
    | _ => (false, t)
  let t := if base = 16 then dropHexMarker signAndRest.2 else signAndRest.2
  let mag := parseDigits base 0 t
  if signAndRest.1 then
    if mag ≥ 9223372036854775808 then -9223372036854775808 else -(mag : Int)
  else
    if mag ≥ 9223372036854775808 then 9223372036854775807 else (mag : Int)

/-- Cast `static_cast<unsigned short>` of a `long long`. -/
def ushortOfInt (v : Int) : Nat := ((v % 65536 + 65536) % 65536).toNat

/-- Cast `static_cast<int>` of a `long long` (two's-complement truncation). -/
def intOfInt (v : Int) : Int :=
  let m := (v % 4294967296 + 4294967296) % 4294967296
  if m < 2147483648 then m else m - 4294967296

/-- Function `toUShort(range, base)` =
`static_cast<unsigned short>(strtoll(range, nullptr, base))`. -/
def toUShort (text : List Char) (base : Nat) : Nat := ushortOfInt (strtollVal base text)

/-- Function `toInt(range, base)` = `static_cast<int>(strtoll(range, nullptr, base))`. -/
def toInt (text : List Char) (base : Nat) : Int := intOfInt (strtollVal base text)

/-! ### Key tables (RawInputViewer.cpp lines 1229-1231, 1303-1319)

`std::map<USHORT, V>` modelled by its observable behaviour: an
association list where `findEntry` returns the value at a key and
`emplace` inserts only when the key is absent. -/

/-- Structure `KeyCodes` (RawInputViewer.hpp lines 935-949). -/
structure KeyCodes where
  keyCode : Int
  sml : List Char
  ray : List Char
  glfw : List Char
deriving DecidableEq

abbrev Table (V : Type) : Type := List (Nat × V)

/-- Lookup `std::map::find`, as the optional value stored at the key. -/
def findEntry {V : Type} (m : Table V) (k : Nat) : Option V :=
  (List.find? (fun p => p.1 == k) m).map (fun p => p.2)

/-- Insertion `std::map::emplace`: no effect when the key is already present. -/
def emplace {V : Type} (m : Table V) (k : Nat) (v : V) : Table V :=
  if (List.find? (fun p => p.1 == k) m).isSome then m else m ++ [(k, v)]

/-- One iteration of the `scanCodeMapping_` load loop
(RawInputViewer.cpp lines 1306-1310): split the line on `=` and commas,
parse the key as hex `USHORT` and the key code as decimal `int`. -/
def loadScanCodeLine (mappingView : List Char) : Nat × KeyCodes :=
  let p1 := splitOnce '=' mappingView
  let p2 := splitOnce ',' p1.2
  let p3 := splitOnce ',' p2.2
  let p4 := splitOnce ',' p3.2
  (toUShort p1.1 16, { keyCode := toInt p2.1 10, sml := p3.1, ray := p4.1, glfw := p4.2 })

/-- The `scanCodeMapping_` load loop (RawInputViewer.cpp lines 1303-1311). -/
def loadScanCodeTable (text : List Char) : Table KeyCodes :=
  (splitAndTrimTrailing '\n' text).foldl
    (fun m line => emplace m (loadScanCodeLine line).1 (loadScanCodeLine line).2) []

/-- One iteration of the `vkeyMapping_` load loop
(RawInputViewer.cpp lines 1316-1318). -/
def loadVKeyLine (mappingView : List Char) : Nat × (List Char × List Char) :=
  let p1 := splitOnce '=' mappingView
  let p2 := splitOnce ',' p1.2
  (toUShort p1.1 16, (p2.1, p2.2))

/-- The `vkeyMapping_` load loop (RawInputViewer.cpp lines 1313-1319). -/
def loadVKeyTable (text : List Char) : Table (List Char × List Char) :=
  (splitAndTrimTrailing '\n' text).foldl
    (fun m line => emplace m (loadVKeyLine line).1 (loadVKeyLine line).2) []

/-! ### Lookup functions (RawInputViewer.cpp lines 161-179)

The C++ functions return a `std::map` iterator; the model returns the
optional entry, `none` standing for the `end()` iterator. -/

/-- Method `MainWindow::lookupVirtualKey`: exact match on `VKey`, else the
`0xFF` sentinel row (itself possibly absent). -/
def lookupVirtualKey (vkeyMapping : Table (List Char × List Char)) (rawKbd : RawKeyboard) :
    Option (List Char × List Char) :=
  match findEntry vkeyMapping rawKbd.VKey with
  | none => findEntry vkeyMapping 0xFF
  | some e => some e

/-- Method `MainWindow::lookupKeyCode`: exact match on `getLookupCode()`, else
the `0x000` sentinel row (itself possibly absent). -/
def lookupKeyCode (scanCodeMapping : Table KeyCodes) (rawKbd : RawKeyboard) :
    Option KeyCodes :=
  match findEntry scanCodeMapping rawKbd.getLookupCode with
  | none => findEntry scanCodeMapping 0x000
  | some e => some e

/-! ### Helper lemmas on bitmasks -/

theorem or_and_eq (a b : Nat) : (a ||| b) &&& b = b := by
  apply Nat.eq_of_testBit_eq
  intro i
  simp only [Nat.testBit_and, Nat.testBit_or]
  cases Nat.testBit b i <;> simp

theorem and_or_ne_zero {a c : Nat} (b : Nat) (h : a &&& c ≠ 0) : (a ||| b) &&& c ≠ 0 := by
  intro h0
  apply h
  apply Nat.eq_of_testBit_eq
  intro i
  have hbit := congrArg (fun x => Nat.testBit x i) h0
  simp only [Nat.testBit_and, Nat.testBit_or, Nat.zero_testBit] at hbit ⊢
  cases ha : Nat.testBit a i <;> cases hc : Nat.testBit c i <;> simp_all

theorem or_and_ne_zero (a b : Nat) (hb : b ≠ 0) : (a ||| b) &&& b ≠ 0 := by
  rw [or_and_eq]
  exact hb

/-! ### Claim theorems -/

/-- C6: for every pending-sequence state and every raw event whose make
code is the overrun sentinel, `adjustKeyboardInput` suppresses the event
and leaves the pending state exactly as it was, whatever the event's
flags or virtual key. -/
theorem overrun_preserves_pending (mapVirtualKey : Nat → Nat) (pending : ScanCodeSequence)
    (k : RawKeyboard) (h : k.MakeCode = KEYBOARD_OVERRUN_MAKE_CODE) :
    adjustKeyboardInput mapVirtualKey pending k = (pending, none) := by
  simp [adjustKeyboardInput, h]

/-- Witness for C6 at a concrete overrun event in state `E1`. -/
theorem overrun_preserves_pending_witness :
    adjustKeyboardInput (fun _ => 0) ScanCodeSequence.E1
      { MakeCode := 0xFF, Flags := 5, VKey := 0x90, adjustments := 0, isKeyDown := false } =
      (ScanCodeSequence.E1, none) :=
  overrun_preserves_pending (fun _ => 0) ScanCodeSequence.E1
    { MakeCode := 0xFF, Flags := 5, VKey := 0x90, adjustments := 0, isKeyDown := false }
    (by decide)

/-- C2 counterexample: packing the normalized event with make code
`0x1E`, flags `0`, virtual key `0x41` and adjustment flags `0` does NOT
yield the word `0x00411E` claimed by the spec. -/
theorem pack_example_not_0x00411E :
    pack { MakeCode := 0x1E, Flags := 0, VKey := 0x41, adjustments := 0, isKeyDown := true } ≠
      0x00411E := by
  decide

/-- C2 (amended): the four bytes are concatenated with `make_code` in
bits 0-7, `flags` in bits 8-15, `virtual_key` in bits 16-23 and
`adjustment_flags` in bits 24-31, so the example event packs to
`0x41001E` (not `0x00411E`). -/
theorem pack_field_order (e : RawKeyboard) :
    pack { MakeCode := 0x1E, Flags := 0, VKey := 0x41, adjustments := 0, isKeyDown := true } =
      0x41001E ∧
    pack e % 256 = e.MakeCode % 256 ∧
    pack e / 256 % 256 = e.Flags % 256 ∧
    pack e / 65536 % 256 = e.VKey % 256 ∧
    pack e / 16777216 % 256 = e.adjustments % 256 := by
  refine ⟨by decide, ?_, ?_, ?_, ?_⟩ <;> (unfold pack; omega)

/-- C1: for every normalized event whose four stored fields fit in a
byte, unpacking the packed word restores `MakeCode`, `Flags`, `VKey`
and `adjustments` exactly, and the unpacked `isKeyDown` is recomputed
as "the key-released bit of the flags byte is clear". -/
theorem pack_unpack_roundtrip (e : RawKeyboard)
    (h1 : e.MakeCode < 256) (h2 : e.Flags < 256) (h3 : e.VKey < 256)
    (h4 : e.adjustments < 256) :
    (getRawKeyboard (pack e)).MakeCode = e.MakeCode ∧
    (getRawKeyboard (pack e)).Flags = e.Flags ∧
    (getRawKeyboard (pack e)).VKey = e.VKey ∧
    (getRawKeyboard (pack e)).adjustments = e.adjustments ∧
    (getRawKeyboard (pack e)).isKeyDown = (e.Flags &&& RI_KEY_BREAK == 0) := by
  have hM : pack e % 256 = e.MakeCode := by unfold pack; omega
  have hF : pack e / 256 % 256 = e.Flags := by unfold pack; omega
  have hV : pack e / 65536 % 256 = e.VKey := by unfold pack; omega
  have hA : pack e / 16777216 % 256 = e.adjustments := by unfold pack; omega
  simp [getRawKeyboard, RawKeyboard.fromRawWithAdjustments, RawKeyboard.fromRaw, hM, hF, hV, hA]

/-- Witness for C1 at the key-down event `{0x1E, 0, 0x41, 0}`. -/
theorem pack_unpack_roundtrip_witness :
    (getRawKeyboard (pack ⟨0x1E, 0, 0x41, 0, true⟩)).MakeCode = 0x1E ∧
    (getRawKeyboard (pack ⟨0x1E, 0, 0x41, 0, true⟩)).Flags = 0 ∧
    (getRawKeyboard (pack ⟨0x1E, 0, 0x41, 0, true⟩)).VKey = 0x41 ∧
    (getRawKeyboard (pack ⟨0x1E, 0, 0x41, 0, true⟩)).adjustments = 0 ∧
    (getRawKeyboard (pack ⟨0x1E, 0, 0x41, 0, true⟩)).isKeyDown =
      ((0 : Nat) &&& RI_KEY_BREAK == 0) :=
  pack_unpack_roundtrip ⟨0x1E, 0, 0x41, 0, true⟩ (by decide) (by decide) (by decide) (by decide)

/-- C9 counterexample: with the platform translation returning the
16-bit extended code `0xE01C`, normalizing a raw event with make code
`0` produces an event whose make code is `0xE01C`, which is not below
`256` — `adjustKeyboardInput` performs no 8-bit truncation. -/
theorem normalize_no_truncation_counterexample :
    ((adjustKeyboardInput (fun _ => 0xE01C) ScanCodeSequence.None
        (RawKeyboard.fromRaw { MakeCode := 0, Flags := 0, VKey := 0x0D })).2.map
      (fun k => k.MakeCode)) = some 0xE01C ∧ 256 ≤ 0xE01C := by
  decide

/-- Lemma: `emplace` leaves an existing binding in place: the observable entry
at `k` after `emplace m a v` is the old entry when `k` was bound, and
`v` only when `a = k` was unbound. -/
theorem findEntry_emplace {V : Type} (m : Table V) (a k : Nat) (v : V) :
    findEntry (emplace m a v) k =
      match findEntry m k with
      | some w => some w
      | none => if a = k then some v else none := by
  by_cases hpres : (List.find? (fun p => p.1 == a) m).isSome
  · have hm : emplace m a v = m := by rw [emplace, if_pos hpres]
    rw [hm]
    cases hfind : findEntry m k with
    | some w => rfl
    | none =>
      by_cases hak : a = k
      · subst hak
        rw [findEntry, Option.map_eq_none'] at hfind
        rw [hfind] at hpres
        simp at hpres
      · simp [hak]
  · have hm : emplace m a v = m ++ [(a, v)] := by rw [emplace, if_neg hpres]
    rw [hm, findEntry, List.find?_append]
    cases hfind : List.find? (fun p => p.1 == k) m with
    | some p =>
      have hs : findEntry m k = some p.2 := by rw [findEntry, hfind]; rfl
      rw [hs]
      simp
    | none =>
      have hn : findEntry m k = none := by rw [findEntry, hfind]; rfl
      rw [hn]
      by_cases hak : a = k
      · subst hak
        simp [List.find?]
      · have hb : (a == k) = false := by simp [hak]
        simp [List.find?, hak, hb]

/-- Folding table lines through `emplace` resolves each key to the entry
of the FIRST line carrying it (entries already in the accumulator take
precedence over all lines). -/
theorem findEntry_foldl_emplace {V : Type} (parseLine : List Char → Nat × V)
    (lines : List (List Char)) (m : Table V) (k : Nat) :
    findEntry (lines.foldl (fun t line => emplace t (parseLine line).1 (parseLine line).2) m) k =
      match findEntry m k with
      | some w => some w
      | none =>
        (List.find? (fun l => (parseLine l).1 == k) lines).map (fun l => (parseLine l).2) := by
  induction lines generalizing m with
  | nil =>
    cases hfind : findEntry m k <;> simp [hfind]
  | cons l ls ih =>
    rw [List.foldl_cons, ih, findEntry_emplace]
    cases hfind : findEntry m k with
    | some w => rfl
    | none =>
      by_cases hak : (parseLine l).1 = k
      · simp [List.find?, hak]
      · have hb : ((parseLine l).1 == k) = false := by simp [hak]
        simp [List.find?, hak, hb]

/-- C3 counterexample: in a table text with two lines whose keys both
parse to `0x01`, both loaders keep the entry of the FIRST line, which
differs from the entry built from the last line — "last line wins" is
false. -/
theorem load_duplicate_key_counterexample :
    findEntry (loadScanCodeTable ("01=1,A,B,C\n01=2,D,E,F".toList)) 1 =
      some { keyCode := 1, sml := ['A'], ray := ['B'], glfw := ['C'] } ∧
    ({ keyCode := 1, sml := ['A'], ray := ['B'], glfw := ['C'] } : KeyCodes) ≠
      { keyCode := 2, sml := ['D'], ray := ['E'], glfw := ['F'] } ∧
    findEntry (loadVKeyTable ("0a=X,Y\n0a=Z,W".toList)) 0x0a = some (['X'], ['Y']) ∧
    (['X'], ['Y']) ≠ (['Z'], ['W']) := by
  refine ⟨by decide, by decide, by decide, by decide⟩

/-- C3 (amended): duplicate keys resolve to the FIRST line — for every
table text and key, both loaders map the key to the entry built from the
earliest surviving line whose key field parses to it (`std::map::emplace`
never overwrites an existing binding). -/
theorem load_duplicate_key_first_wins (text : List Char) (k : Nat) :
    findEntry (loadScanCodeTable text) k =
      (List.find? (fun l => (loadScanCodeLine l).1 == k)
        (splitAndTrimTrailing '\n' text)).map (fun l => (loadScanCodeLine l).2) ∧
    findEntry (loadVKeyTable text) k =
      (List.find? (fun l => (loadVKeyLine l).1 == k)
        (splitAndTrimTrailing '\n' text)).map (fun l => (loadVKeyLine l).2) := by
  constructor
  · rw [loadScanCodeTable, findEntry_foldl_emplace]
    rfl
  · rw [loadVKeyTable, findEntry_foldl_emplace]
    rfl

/-! ### Helper lemmas about `adjustVirtualKey` -/

theorem adjustVirtualKey_MakeCode (k : RawKeyboard) :
    (adjustVirtualKey k).MakeCode = k.MakeCode := by
  simp only [adjustVirtualKey]
  split_ifs <;> rfl

theorem adjustVirtualKey_Flags (k : RawKeyboard) :
    (adjustVirtualKey k).Flags = k.Flags := by
  simp only [adjustVirtualKey]
  split_ifs <;> rfl

theorem adjustVirtualKey_adjustments_bit (k : RawKeyboard) (c : Nat)
    (h : k.adjustments &&& c ≠ 0) : (adjustVirtualKey k).adjustments &&& c ≠ 0 := by
  simp only [adjustVirtualKey]
  split_ifs <;> first
    | exact h
    | exact and_or_ne_zero VirtualKeyAdjusted h

theorem adjustVirtualKey_VKey_lt (k : RawKeyboard) (h : k.VKey < 256) :
    (adjustVirtualKey k).VKey < 256 := by
  simp only [adjustVirtualKey]
  split_ifs <;> first
    | exact h
    | simp [VK_LSHIFT, VK_RSHIFT, VK_RCONTROL, VK_RMENU]

theorem adjustVirtualKey_id_of_vkey (k : RawKeyboard) (h1 : k.VKey ≠ VK_SHIFT)
    (h2 : k.VKey ≠ VK_CONTROL) (h3 : k.VKey ≠ VK_MENU) : adjustVirtualKey k = k := by
  simp only [adjustVirtualKey]
  split_ifs <;> simp_all

theorem adjustVirtualKey_id_of_codes (k : RawKeyboard) (hE0 : k.Flags &&& RI_KEY_E0 = 0)
    (hmc1 : k.MakeCode ≠ 0x2A) (hmc2 : k.MakeCode ≠ 0x36) : adjustVirtualKey k = k := by
  simp only [adjustVirtualKey]
  split_ifs <;> simp_all

/-- C5: the virtual-key disambiguation step: a generic Shift resolves by
make code (`0x2A` to Left-Shift, `0x36` to Right-Shift, both marking
`VirtualKeyAdjusted`); a generic Control or Alt/Menu with the extended-0
flag resolves to the Right variant with `VirtualKeyAdjusted`; without
the extended-0 flag, Control and Alt/Menu are left completely unchanged
by this step. -/
theorem virtual_key_disambiguation (k : RawKeyboard) :
    (k.VKey = VK_SHIFT ∧ k.MakeCode = 0x2A →
      (adjustVirtualKey k).VKey = VK_LSHIFT ∧
      (adjustVirtualKey k).adjustments &&& VirtualKeyAdjusted ≠ 0) ∧
    (k.VKey = VK_SHIFT ∧ k.MakeCode = 0x36 →
      (adjustVirtualKey k).VKey = VK_RSHIFT ∧
      (adjustVirtualKey k).adjustments &&& VirtualKeyAdjusted ≠ 0) ∧
    (k.VKey = VK_CONTROL ∧ k.Flags &&& RI_KEY_E0 ≠ 0 →
      (adjustVirtualKey k).VKey = VK_RCONTROL ∧
      (adjustVirtualKey k).adjustments &&& VirtualKeyAdjusted ≠ 0) ∧
    (k.VKey = VK_MENU ∧ k.Flags &&& RI_KEY_E0 ≠ 0 →
      (adjustVirtualKey k).VKey = VK_RMENU ∧
      (adjustVirtualKey k).adjustments &&& VirtualKeyAdjusted ≠ 0) ∧
    ((k.VKey = VK_CONTROL ∨ k.VKey = VK_MENU) ∧ k.Flags &&& RI_KEY_E0 = 0 →
      (adjustVirtualKey k).VKey = k.VKey ∧
      (adjustVirtualKey k).adjustments = k.adjustments) := by
  refine ⟨?_, ?_, ?_, ?_, ?_⟩
  · rintro ⟨h1, h2⟩
    have hk : adjustVirtualKey k =
        { k with VKey := VK_LSHIFT, adjustments := k.adjustments ||| VirtualKeyAdjusted } := by
      unfold adjustVirtualKey
      simp [h1, h2, VK_SHIFT]
    rw [hk]
    exact ⟨rfl, or_and_ne_zero _ _ (by decide)⟩
  · rintro ⟨h1, h2⟩
    have hk : adjustVirtualKey k =
        { k with VKey := VK_RSHIFT, adjustments := k.adjustments ||| VirtualKeyAdjusted } := by
      unfold adjustVirtualKey
      simp [h1, h2, VK_SHIFT]
    rw [hk]
    exact ⟨rfl, or_and_ne_zero _ _ (by decide)⟩
  · rintro ⟨h1, h2⟩
    have hk : adjustVirtualKey k =
        { k with VKey := VK_RCONTROL, adjustments := k.adjustments ||| VirtualKeyAdjusted } := by
      unfold adjustVirtualKey
      simp [h1, h2, VK_SHIFT, VK_CONTROL]
    rw [hk]
    exact ⟨rfl, or_and_ne_zero _ _ (by decide)⟩
  · rintro ⟨h1, h2⟩
    have hk : adjustVirtualKey k =
        { k with VKey := VK_RMENU, adjustments := k.adjustments ||| VirtualKeyAdjusted } := by
      unfold adjustVirtualKey
      simp [h1, h2, VK_SHIFT, VK_CONTROL, VK_MENU]
    rw [hk]
    exact ⟨rfl, or_and_ne_zero _ _ (by decide)⟩
  · rintro ⟨h1, h2⟩
    have hk : adjustVirtualKey k = k := by
      unfold adjustVirtualKey
      rcases h1 with h1 | h1 <;> simp_all [VK_SHIFT, VK_CONTROL, VK_MENU]
    rw [hk]
    exact ⟨rfl, rfl⟩

/-- Witness for C5: generic Shift with make code `0x2A` resolves to
Left-Shift with `VirtualKeyAdjusted`. -/
theorem virtual_key_disambiguation_witness :
    (adjustVirtualKey ⟨0x2A, 0, VK_SHIFT, 0, true⟩).VKey = VK_LSHIFT ∧
    (adjustVirtualKey ⟨0x2A, 0, VK_SHIFT, 0, true⟩).adjustments &&& VirtualKeyAdjusted ≠ 0 :=
  (virtual_key_disambiguation ⟨0x2A, 0, VK_SHIFT, 0, true⟩).1 ⟨rfl, rfl⟩

/-- C4 counterexample: an extended-1-prefix event whose make code is the
overrun sentinel `0xFF` is suppressed by the overrun filter BEFORE the
E1 branch runs, so no sequence becomes pending and a following `0x45`
event resolves to NumLock (`ExtendedLookup`), not Pause — the claim's
"any make code" is false at make code `0xFF`. -/
theorem pause_sequence_counterexample :
    adjustKeyboardInput (fun _ => 0) ScanCodeSequence.None
      (RawKeyboard.fromRaw ⟨0xFF, 4, 0x90⟩) = (ScanCodeSequence.None, none) ∧
    ((adjustKeyboardInput (fun _ => 0) ScanCodeSequence.None
        (RawKeyboard.fromRaw ⟨0x45, 0, 0x90⟩)).2.map (fun k => k.VKey)) = some 0x90 ∧
    (0x90 : Nat) ≠ VK_PAUSE ∧
    ((adjustKeyboardInput (fun _ => 0) ScanCodeSequence.None
        (RawKeyboard.fromRaw ⟨0x45, 0, 0x90⟩)).2.map
      (fun k => k.adjustments &&& VirtualKeyAdjusted)) = some 0 := by
  decide

/-- C4 (amended): feeding an extended-1-prefix event whose make code is
NOT the overrun sentinel puts the normalizer into the E1 state and
suppresses the event; a following `0x45` event (no prefix flags) then
yields a normalized event with `virtual_key = VK_PAUSE` and
`VirtualKeyAdjusted` set, while a `0x45` event fed with no pending
sequence yields `ExtendedLookup` set and its virtual key unchanged. -/
theorem pause_numlock_disambiguation (mapVirtualKey : Nat → Nat) (s : ScanCodeSequence)
    (r1 r2 : RAWKEYBOARD)
    (h1 : r1.MakeCode ≠ KEYBOARD_OVERRUN_MAKE_CODE) (h2 : r1.Flags &&& RI_KEY_E1 ≠ 0)
    (h3 : r2.MakeCode = 0x45) (h4 : r2.Flags &&& RI_KEY_E1 = 0)
    (h5 : r2.Flags &&& RI_KEY_E0 = 0) :
    adjustKeyboardInput mapVirtualKey s (RawKeyboard.fromRaw r1) =
      (ScanCodeSequence.E1, none) ∧
    (∃ k, (adjustKeyboardInput mapVirtualKey ScanCodeSequence.E1
        (RawKeyboard.fromRaw r2)).2 = some k ∧
      k.VKey = VK_PAUSE ∧ k.adjustments &&& VirtualKeyAdjusted ≠ 0) ∧
    (∃ k, (adjustKeyboardInput mapVirtualKey ScanCodeSequence.None
        (RawKeyboard.fromRaw r2)).2 = some k ∧
      k.adjustments &&& ExtendedLookup ≠ 0 ∧ k.VKey = r2.VKey) := by
  have hfrom : RawKeyboard.fromRaw r2 =
      { MakeCode := r2.MakeCode, Flags := r2.Flags, VKey := r2.VKey, adjustments := 0,
        isKeyDown := r2.Flags &&& RI_KEY_BREAK == 0 } := by
    simp [RawKeyboard.fromRaw, h5]
  refine ⟨?_, ?_, ?_⟩
  · simp [adjustKeyboardInput, RawKeyboard.fromRaw, h1, h2]
  · have hpause : RawKeyboard.mk r2.MakeCode r2.Flags VK_PAUSE
        (0 ||| VirtualKeyAdjusted) (r2.Flags &&& RI_KEY_BREAK == 0) =
        adjustVirtualKey (RawKeyboard.mk r2.MakeCode r2.Flags VK_PAUSE
          (0 ||| VirtualKeyAdjusted) (r2.Flags &&& RI_KEY_BREAK == 0)) := by
      rw [adjustVirtualKey_id_of_vkey] <;> simp [VK_PAUSE, VK_SHIFT, VK_CONTROL, VK_MENU]
    have hrun : (adjustKeyboardInput mapVirtualKey ScanCodeSequence.E1
        (RawKeyboard.fromRaw r2)).2 =
        some (adjustVirtualKey (RawKeyboard.mk r2.MakeCode r2.Flags VK_PAUSE
          (0 ||| VirtualKeyAdjusted) (r2.Flags &&& RI_KEY_BREAK == 0))) := by
      rw [hfrom]
      simp [adjustKeyboardInput, h3, h4, h5, KEYBOARD_OVERRUN_MAKE_CODE]
    refine ⟨_, hrun, ?_, ?_⟩
    · rw [← hpause]
    · rw [← hpause]
      simp [VirtualKeyAdjusted]
  · have hnum : RawKeyboard.mk r2.MakeCode r2.Flags r2.VKey
        (0 ||| ExtendedLookup) (r2.Flags &&& RI_KEY_BREAK == 0) =
        adjustVirtualKey (RawKeyboard.mk r2.MakeCode r2.Flags r2.VKey
          (0 ||| ExtendedLookup) (r2.Flags &&& RI_KEY_BREAK == 0)) := by
      rw [adjustVirtualKey_id_of_codes]
      · exact h5
      · rw [h3]; simp
      · rw [h3]; simp
    have hrun : (adjustKeyboardInput mapVirtualKey ScanCodeSequence.None
        (RawKeyboard.fromRaw r2)).2 =
        some (adjustVirtualKey (RawKeyboard.mk r2.MakeCode r2.Flags r2.VKey
          (0 ||| ExtendedLookup) (r2.Flags &&& RI_KEY_BREAK == 0))) := by
      rw [hfrom]
      simp [adjustKeyboardInput, h3, h4, h5, KEYBOARD_OVERRUN_MAKE_CODE]
    refine ⟨_, hrun, ?_, ?_⟩
    · rw [← hnum]
      simp [ExtendedLookup]
    · rw [← hnum]

/-- Witness for C4 at a concrete E1 event (make code `0x1D`) followed by
a `0x45` event carrying the NumLock virtual key `0x90`. -/
theorem pause_numlock_disambiguation_witness :
    adjustKeyboardInput (fun _ => 0) ScanCodeSequence.None
      (RawKeyboard.fromRaw ⟨0x1D, 4, 0x13⟩) = (ScanCodeSequence.E1, none) ∧
    (∃ k, (adjustKeyboardInput (fun _ => 0) ScanCodeSequence.E1
        (RawKeyboard.fromRaw ⟨0x45, 0, 0x90⟩)).2 = some k ∧
      k.VKey = VK_PAUSE ∧ k.adjustments &&& VirtualKeyAdjusted ≠ 0) ∧
    (∃ k, (adjustKeyboardInput (fun _ => 0) ScanCodeSequence.None
        (RawKeyboard.fromRaw ⟨0x45, 0, 0x90⟩)).2 = some k ∧
      k.adjustments &&& ExtendedLookup ≠ 0 ∧ k.VKey = (RAWKEYBOARD.mk 0x45 0 0x90).VKey) :=
  pause_numlock_disambiguation (fun _ => 0) ScanCodeSequence.None ⟨0x1D, 4, 0x13⟩
    ⟨0x45, 0, 0x90⟩ (by decide) (by decide) (by decide) (by decide) (by decide)

/-- C7: for a non-prefix, non-overrun raw event with make code `0`, the
platform translation of the virtual key decides the outcome: a zero (or
failed, which the platform reports as zero) translation suppresses the
event with no other outcome, while a nonzero translation produces an
event carrying the translated make code and the `MakeCodeMapped`
("make code was synthesized") flag. -/
theorem zero_make_code_recovery (mapVirtualKey : Nat → Nat) (s : ScanCodeSequence)
    (r : RAWKEYBOARD) (h0 : r.MakeCode = 0) (hE1 : r.Flags &&& RI_KEY_E1 = 0) :
    (mapVirtualKey r.VKey % 65536 = 0 →
      adjustKeyboardInput mapVirtualKey s (RawKeyboard.fromRaw r) =
        (ScanCodeSequence.None, none)) ∧
    (mapVirtualKey r.VKey % 65536 ≠ 0 →
      ∃ k, (adjustKeyboardInput mapVirtualKey s (RawKeyboard.fromRaw r)).2 = some k ∧
        k.MakeCode = mapVirtualKey r.VKey % 65536 ∧
        k.adjustments &&& MakeCodeMapped ≠ 0) := by
  constructor
  · intro hm
    simp [adjustKeyboardInput, RawKeyboard.fromRaw, KEYBOARD_OVERRUN_MAKE_CODE, h0, hE1, hm]
  · intro hm
    have hbase : ((if r.Flags &&& RI_KEY_E0 ≠ 0 then ExtendedLookup else 0) ||| MakeCodeMapped)
        &&& MakeCodeMapped ≠ 0 :=
      or_and_ne_zero _ _ (by decide)
    by_cases h45 : mapVirtualKey r.VKey % 65536 = 0x45
    · by_cases hsE1 : s = ScanCodeSequence.E1
      · have hrun : (adjustKeyboardInput mapVirtualKey s (RawKeyboard.fromRaw r)).2 =
            some (adjustVirtualKey (RawKeyboard.mk (mapVirtualKey r.VKey % 65536) r.Flags
              VK_PAUSE
              (((if r.Flags &&& RI_KEY_E0 ≠ 0 then ExtendedLookup else 0) ||| MakeCodeMapped)
                ||| VirtualKeyAdjusted)
              (r.Flags &&& RI_KEY_BREAK == 0))) := by
          simp [adjustKeyboardInput, RawKeyboard.fromRaw, KEYBOARD_OVERRUN_MAKE_CODE, h0, hE1, hm,
            h45, hsE1]
        refine ⟨_, hrun, ?_, ?_⟩
        · rw [adjustVirtualKey_MakeCode]
        · exact adjustVirtualKey_adjustments_bit _ _ (and_or_ne_zero _ hbase)
      · have hrun : (adjustKeyboardInput mapVirtualKey s (RawKeyboard.fromRaw r)).2 =
            some (adjustVirtualKey (RawKeyboard.mk (mapVirtualKey r.VKey % 65536) r.Flags
              r.VKey
              (((if r.Flags &&& RI_KEY_E0 ≠ 0 then ExtendedLookup else 0) ||| MakeCodeMapped)
                ||| ExtendedLookup)
              (r.Flags &&& RI_KEY_BREAK == 0))) := by
          simp [adjustKeyboardInput, RawKeyboard.fromRaw, KEYBOARD_OVERRUN_MAKE_CODE, h0, hE1, hm,
            h45, hsE1]
        refine ⟨_, hrun, ?_, ?_⟩
        · rw [adjustVirtualKey_MakeCode]
        · exact adjustVirtualKey_adjustments_bit _ _ (and_or_ne_zero _ hbase)
    · have hrun : (adjustKeyboardInput mapVirtualKey s (RawKeyboard.fromRaw r)).2 =
          some (adjustVirtualKey (RawKeyboard.mk (mapVirtualKey r.VKey % 65536) r.Flags
            r.VKey
            ((if r.Flags &&& RI_KEY_E0 ≠ 0 then ExtendedLookup else 0) ||| MakeCodeMapped)
            (r.Flags &&& RI_KEY_BREAK == 0))) := by
        simp [adjustKeyboardInput, RawKeyboard.fromRaw, KEYBOARD_OVERRUN_MAKE_CODE, h0, hE1, hm,
          h45]
      refine ⟨_, hrun, ?_, ?_⟩
      · rw [adjustVirtualKey_MakeCode]
      · exact adjustVirtualKey_adjustments_bit _ _ hbase

/-- Witness for C7 with a translation oracle returning `0x1C` for the
Return virtual key `0x0D`, and an oracle returning `0` for the failing
side. -/
theorem zero_make_code_recovery_witness :
    ((fun _ => 0x1C : Nat → Nat) 0x0D % 65536 ≠ 0 →
      ∃ k, (adjustKeyboardInput (fun _ => 0x1C) ScanCodeSequence.None
          (RawKeyboard.fromRaw ⟨0, 0, 0x0D⟩)).2 = some k ∧
        k.MakeCode = (fun _ => 0x1C : Nat → Nat) 0x0D % 65536 ∧
        k.adjustments &&& MakeCodeMapped ≠ 0) ∧
    ((fun _ => 0 : Nat → Nat) 0x0D % 65536 = 0 →
      adjustKeyboardInput (fun _ => 0) ScanCodeSequence.None
        (RawKeyboard.fromRaw ⟨0, 0, 0x0D⟩) = (ScanCodeSequence.None, none)) :=
  ⟨(zero_make_code_recovery (fun _ => 0x1C) ScanCodeSequence.None ⟨0, 0, 0x0D⟩
      rfl (by decide)).2,
    (zero_make_code_recovery (fun _ => 0) ScanCodeSequence.None ⟨0, 0, 0x0D⟩
      rfl (by decide)).1⟩

/-- C9 (amended): `adjustKeyboardInput` itself never truncates, so the
byte-size invariant holds exactly when the inputs are byte-sized: if the
raw event's fields are below `256` and every platform translation result
is below `256`, then any event the normalizer produces has `MakeCode`,
`Flags` and `VKey` below `256`.  (Without those bounds the invariant
fails; see the counterexample.) -/
theorem normalized_fields_byte_bounded (mapVirtualKey : Nat → Nat) (s : ScanCodeSequence)
    (r : RAWKEYBOARD) (h1 : r.MakeCode < 256) (h2 : r.Flags < 256) (h3 : r.VKey < 256)
    (h4 : ∀ v, mapVirtualKey v % 65536 < 256) (k : RawKeyboard)
    (hk : (adjustKeyboardInput mapVirtualKey s (RawKeyboard.fromRaw r)).2 = some k) :
    k.MakeCode < 256 ∧ k.Flags < 256 ∧ k.VKey < 256 := by
  simp only [adjustKeyboardInput, RawKeyboard.fromRaw] at hk
  repeat' split at hk
  all_goals simp only [Option.some.injEq, reduceCtorEq] at hk
  all_goals rw [← hk]
  all_goals rw [adjustVirtualKey_MakeCode, adjustVirtualKey_Flags]
  all_goals refine ⟨?_, ?_, adjustVirtualKey_VKey_lt _ ?_⟩
  all_goals simp only []
  all_goals first
    | exact h1
    | exact h2
    | exact h3
    | exact h4 _
    | simp [VK_PAUSE]

/-- Witness for C9 (amended) at the byte-sized event `{0x1E, 0, 0x41}`
with an always-zero translation oracle. -/
theorem normalized_fields_byte_bounded_witness :
    (⟨0x1E, 0, 0x41, 0, true⟩ : RawKeyboard).MakeCode < 256 ∧
    (⟨0x1E, 0, 0x41, 0, true⟩ : RawKeyboard).Flags < 256 ∧
    (⟨0x1E, 0, 0x41, 0, true⟩ : RawKeyboard).VKey < 256 :=
  normalized_fields_byte_bounded (fun _ => 0) ScanCodeSequence.None ⟨0x1E, 0, 0x41⟩
    (by decide) (by decide) (by decide) (fun _ => by simp) ⟨0x1E, 0, 0x41, 0, true⟩
    (by decide)

/-- C8 counterexample: on a table that lacks the sentinel row, a missed
lookup returns NO entry at all (the `end()` iterator, modelled `none`),
not an empty/zero entry. -/
theorem lookup_missing_sentinel_counterexample :
    lookupVirtualKey [] ⟨0x1E, 0, 0x41, 0, true⟩ = none ∧
    (none : Option (List Char × List Char)) ≠ some ([], []) ∧
    lookupKeyCode [] ⟨0x1E, 0, 0x41, 0, true⟩ = none ∧
    (none : Option KeyCodes) ≠ some { keyCode := 0, sml := [], ray := [], glfw := [] } := by
  refine ⟨by decide, by decide, by decide, by decide⟩

/-- C8 (amended): both lookups return the exact-match entry when the key
is present and otherwise fall back to the sentinel key (`0xFF` for the
virtual-key table, `0x000` for the scan-code table); when the sentinel
row is itself absent the lookup yields no entry (the `end()` iterator)
rather than an empty/zero entry, and the C++ callers dereference it
unchecked. -/
theorem lookup_sentinel_fallback (vkeyMapping : Table (List Char × List Char))
    (scanCodeMapping : Table KeyCodes) (k : RawKeyboard) :
    (∀ e, findEntry vkeyMapping k.VKey = some e → lookupVirtualKey vkeyMapping k = some e) ∧
    (findEntry vkeyMapping k.VKey = none →
      lookupVirtualKey vkeyMapping k = findEntry vkeyMapping 0xFF) ∧
    (∀ e, findEntry scanCodeMapping k.getLookupCode = some e →
      lookupKeyCode scanCodeMapping k = some e) ∧
    (findEntry scanCodeMapping k.getLookupCode = none →
      lookupKeyCode scanCodeMapping k = findEntry scanCodeMapping 0x000) := by
  refine ⟨?_, ?_, ?_, ?_⟩
  · intro e he
    rw [lookupVirtualKey, he]
  · intro he
    rw [lookupVirtualKey, he]
  · intro e he
    rw [lookupKeyCode, he]
  · intro he
    rw [lookupKeyCode, he]

/-- Witness for C8 on a one-row table holding only the sentinel keys. -/
theorem lookup_sentinel_fallback_witness :
    lookupVirtualKey [(0xFF, (['u'], ['u']))] ⟨0x1E, 0, 0x41, 0, true⟩ =
      findEntry [(0xFF, (['u'], ['u']))] 0xFF ∧
    lookupKeyCode [(0x000, { keyCode := -1, sml := [], ray := [], glfw := [] })]
      ⟨0x1E, 0, 0x41, 0, true⟩ =
      findEntry [(0x000, { keyCode := -1, sml := [], ray := [], glfw := [] })] 0x000 :=
  ⟨(lookup_sentinel_fallback [(0xFF, (['u'], ['u']))] [] ⟨0x1E, 0, 0x41, 0, true⟩).2.1
      (by decide),
    (lookup_sentinel_fallback []
      [(0x000, { keyCode := -1, sml := [], ray := [], glfw := [] })]
      ⟨0x1E, 0, 0x41, 0, true⟩).2.2.2 (by decide)⟩

/-- C10: the `RawKeyboard` constructor already seeds `ExtendedLookup`
from the raw extended-0 flag, before any normalization runs: with the
E0 bit set the lookup code of the freshly constructed event is
`make_code ||| 0x100` whatever the make code is, and with the E0 bit
clear the adjustments start at zero and the lookup code is the make
code itself. -/
theorem extended_bit_initial_lookup (r : RAWKEYBOARD) (hm : r.MakeCode < 65536) :
    (r.Flags &&& RI_KEY_E0 ≠ 0 →
      (RawKeyboard.fromRaw r).adjustments &&& ExtendedLookup ≠ 0 ∧
      (RawKeyboard.fromRaw r).getLookupCode = r.MakeCode ||| 0x100) ∧
    (r.Flags &&& RI_KEY_E0 = 0 →
      (RawKeyboard.fromRaw r).adjustments = 0 ∧
      (RawKeyboard.fromRaw r).getLookupCode = r.MakeCode) := by
  constructor
  · intro hE0
    have hadj : (RawKeyboard.fromRaw r).adjustments = ExtendedLookup := by
      simp [RawKeyboard.fromRaw, hE0]
    refine ⟨by rw [hadj]; decide, ?_⟩
    rw [RawKeyboard.getLookupCode, hadj]
    have hcond : ExtendedLookup &&& ExtendedLookup ≠ 0 := by decide
    rw [if_pos hcond]
    have hlt : (RawKeyboard.fromRaw r).MakeCode ||| 0x100 < 65536 := by
      have : (RawKeyboard.fromRaw r).MakeCode = r.MakeCode := rfl
      rw [this]
      exact Nat.or_lt_two_pow (n := 16) hm (by decide)
    exact Nat.mod_eq_of_lt hlt
  · intro hE0
    have hadj : (RawKeyboard.fromRaw r).adjustments = 0 := by
      simp [RawKeyboard.fromRaw, hE0]
    refine ⟨hadj, ?_⟩
    rw [RawKeyboard.getLookupCode, hadj]
    have hcond : ¬((0 : Nat) &&& ExtendedLookup ≠ 0) := by decide
    rw [if_neg hcond]
    have : (RawKeyboard.fromRaw r).MakeCode = r.MakeCode := rfl
    rw [this, Nat.or_zero]
    exact Nat.mod_eq_of_lt hm

/-- Witness for C10 at the E0-flagged event `{0x1C, RI_KEY_E0, 0x0D}`. -/
theorem extended_bit_initial_lookup_witness :
    (RawKeyboard.fromRaw ⟨0x1C, 2, 0x0D⟩).adjustments &&& ExtendedLookup ≠ 0 ∧
    (RawKeyboard.fromRaw ⟨0x1C, 2, 0x0D⟩).getLookupCode =
      (RAWKEYBOARD.mk 0x1C 2 0x0D).MakeCode ||| 0x100 :=
  (extended_bit_initial_lookup ⟨0x1C, 2, 0x0D⟩ (by decide)).1 (by decide)

end RawInputViewer
